import Mathlib

/-!
Verification of the lyric acquisition and synchronization pipeline of the
`vscode-now-playing-lyrics` extension.  Each definition below is a shallow
embedding of one function of the TypeScript source (`src/extension.ts`);
numeric values that are JavaScript `number`s carrying millisecond
timestamps or fractional seconds are modelled as exact rationals (`Rat`),
and timestamps produced by `Date.now()` as integers (`Int`).
-/

/-- Embeds the `LyricLine` interface: a lyric line with its timestamp in
milliseconds. -/
structure LyricLine where
  text : String
  time : Rat
deriving Repr, DecidableEq

/-- Embeds `findCurrentLyricLine(lyrics, currentTimeMs)`: scan the list with
`Array.prototype.find`, returning the first line whose predicate
`line.time <= currentTimeMs && (!nextLine || nextLine.time > currentTimeMs)`
holds, where `nextLine` is the element one past the current index (the
out-of-bounds lookahead at the last index yields the "no next line" branch).
Returns `none` (the source's `null`) when no line matches.  The function is
total by construction. -/
def findCurrentLyricLine : List LyricLine → Rat → Option LyricLine
  | [], _ => none
  | [line], t => if line.time ≤ t then some line else none
  | line :: next :: rest, t =>
      if line.time ≤ t ∧ t < next.time then some line
      else findCurrentLyricLine (next :: rest) t

/-- The ascending-time ordering between two lyric lines. -/
def timeLe (a b : LyricLine) : Prop := a.time ≤ b.time

instance : DecidableRel timeLe := fun a b => inferInstanceAs (Decidable (a.time ≤ b.time))

theorem find_none_of_lt_head :
    ∀ (lines : List LyricLine) (t : Rat), lines.Pairwise timeLe →
      (∀ l₀, lines.head? = some l₀ → t < l₀.time) →
      findCurrentLyricLine lines t = none := by
  intro lines
  induction lines with
  | nil => intro t _ _; rfl
  | cons l rest ih =>
    intro t hp hh
    have hlt : t < l.time := hh l rfl
    cases rest with
    | nil =>
      simp only [findCurrentLyricLine]
      exact if_neg (not_le.mpr hlt)
    | cons next rest' =>
      simp only [findCurrentLyricLine]
      rw [if_neg (by exact fun h => absurd h.1 (not_le.mpr hlt))]
      apply ih t hp.of_cons
      intro l₀ h₀
      simp only [List.head?] at h₀
      cases h₀
      exact lt_of_lt_of_le hlt (List.rel_of_pairwise_cons hp (List.mem_cons_self _ _))

theorem find_last_of_le :
    ∀ (lines : List LyricLine) (t : Rat) (lN : LyricLine), lines.Pairwise timeLe →
      lines.getLast? = some lN → lN.time ≤ t →
      findCurrentLyricLine lines t = some lN := by
  intro lines
  induction lines with
  | nil => intro t lN _ h; cases h
  | cons l rest ih =>
    intro t lN hp hlast hle
    cases rest with
    | nil =>
      simp only [List.getLast?_singleton, Option.some.injEq] at hlast
      cases hlast
      simp only [findCurrentLyricLine]
      exact if_pos hle
    | cons next rest' =>
      rw [List.getLast?_cons_cons] at hlast
      have hmem : lN ∈ next :: rest' := by
        obtain ⟨hne, heq⟩ := List.mem_getLast?_eq_getLast hlast
        exact heq ▸ List.getLast_mem hne
      have hlN : l.time ≤ lN.time := List.rel_of_pairwise_cons hp hmem
      have hnext : next.time ≤ t := by
        rcases List.mem_cons.mp hmem with h | h
        · exact h ▸ hle
        · exact le_trans (List.rel_of_pairwise_cons hp.of_cons h) hle
      simp only [findCurrentLyricLine]
      rw [if_neg (by exact fun h => absurd h.2 (not_lt.mpr hnext))]
      exact ih t lN hp.of_cons hlast hle

theorem find_adjacent :
    ∀ (lines : List LyricLine) (t : Rat) (i : Nat) (a b : LyricLine),
      lines.Pairwise timeLe →
      lines[i]? = some a → lines[i+1]? = some b →
      a.time ≤ t → t < b.time →
      findCurrentLyricLine lines t = some a := by
  intro lines
  induction lines with
  | nil => intro t i a b _ h; cases i <;> cases h
  | cons l rest ih =>
    intro t i a b hp ha hb hat htb
    cases i with
    | zero =>
      simp only [List.getElem?_cons_zero, Option.some.injEq] at ha
      cases ha
      rw [List.getElem?_cons_succ] at hb
      cases rest with
      | nil => cases hb
      | cons next rest' =>
        simp only [List.getElem?_cons_zero, Option.some.injEq] at hb
        cases hb
        simp only [findCurrentLyricLine]
        exact if_pos ⟨hat, htb⟩
    | succ j =>
      rw [List.getElem?_cons_succ] at ha hb
      cases rest with
      | nil => cases ha
      | cons next rest' =>
        have hamem : a ∈ next :: rest' := List.getElem?_mem ha
        have hnext : next.time ≤ t := by
          cases j with
          | zero =>
            simp only [List.getElem?_cons_zero, Option.some.injEq] at ha
            exact ha ▸ hat
          | succ k =>
            rw [List.getElem?_cons_succ] at ha
            exact le_trans (List.rel_of_pairwise_cons hp.of_cons (List.getElem?_mem ha)) hat
        simp only [findCurrentLyricLine]
        rw [if_neg (by exact fun h => absurd h.2 (not_lt.mpr hnext))]
        exact ih t j a b hp.of_cons ha hb hat htb

/-- C1: for a sequence of lyric lines ordered ascending by time and any
position, `findCurrentLyricLine` returns the line `L[i]` with
`L[i].time ≤ position < L[i+1].time`, or the last line when its time is
`≤ position`, and returns `none` on an empty sequence or when the position
precedes the first line's time. -/
theorem findCurrentLyricLine_locates (lines : List LyricLine) (t : Rat)
    (hsorted : lines.Pairwise timeLe) :
    (lines = [] → findCurrentLyricLine lines t = none) ∧
    (∀ l₀, lines.head? = some l₀ → t < l₀.time →
       findCurrentLyricLine lines t = none) ∧
    (∀ lN, lines.getLast? = some lN → lN.time ≤ t →
       findCurrentLyricLine lines t = some lN) ∧
    (∀ (i : Nat) (a b : LyricLine), lines[i]? = some a → lines[i+1]? = some b →
       a.time ≤ t → t < b.time →
       findCurrentLyricLine lines t = some a) := by
  refine ⟨fun h => h ▸ rfl, fun l₀ h₀ hlt => ?_, fun lN hN hle => ?_, fun i a b ha hb hat htb => ?_⟩
  · exact find_none_of_lt_head lines t hsorted
      (fun x hx => by rw [h₀] at hx; cases hx; exact hlt)
  · exact find_last_of_le lines t lN hsorted hN hle
  · exact find_adjacent lines t i a b hsorted ha hb hat htb

/-- Witness for C1: on the concrete sorted sequence
`[(0, "a"), (1000, "b"), (2500, "c")]` the locator returns the middle line
at position 1500, the last line at position 9000, and `none` at a position
before the first timestamp. -/
theorem findCurrentLyricLine_locates_witness :
    findCurrentLyricLine [⟨"a", 0⟩, ⟨"b", 1000⟩, ⟨"c", 2500⟩] 1500 = some ⟨"b", 1000⟩ ∧
    findCurrentLyricLine [⟨"a", 0⟩, ⟨"b", 1000⟩, ⟨"c", 2500⟩] 9000 = some ⟨"c", 2500⟩ ∧
    findCurrentLyricLine [⟨"a", 100⟩, ⟨"b", 1000⟩] 50 = none := by
  refine ⟨?_, ?_, ?_⟩
  · exact (findCurrentLyricLine_locates _ 1500 (by decide)).2.2.2 1 ⟨"b", 1000⟩ ⟨"c", 2500⟩
      (by decide) (by decide) (by decide) (by decide)
  · exact (findCurrentLyricLine_locates _ 9000 (by decide)).2.2.1 ⟨"c", 2500⟩ (by decide) (by decide)
  · exact (findCurrentLyricLine_locates _ 50 (by decide)).2.1 ⟨"a", 100⟩ (by decide) (by decide)

/-- C10: with no ordering precondition at all, `findCurrentLyricLine` is a
total function (the definition handles the out-of-bounds lookahead
structurally), and any line it returns has a timestamp not exceeding the
playback position and belongs to the input list. -/
theorem findCurrentLyricLine_sound (lines : List LyricLine) (t : Rat) (l : LyricLine)
    (h : findCurrentLyricLine lines t = some l) :
    l.time ≤ t ∧ l ∈ lines := by
  induction lines with
  | nil => cases h
  | cons a rest ih =>
    cases rest with
    | nil =>
      simp only [findCurrentLyricLine] at h
      by_cases ha : a.time ≤ t
      · rw [if_pos ha] at h
        cases h
        exact ⟨ha, List.mem_cons_self _ _⟩
      · rw [if_neg ha] at h
        cases h
    | cons next rest' =>
      simp only [findCurrentLyricLine] at h
      by_cases hc : a.time ≤ t ∧ t < next.time
      · rw [if_pos hc] at h
        cases h
        exact ⟨hc.1, List.mem_cons_self _ _⟩
      · rw [if_neg hc] at h
        obtain ⟨h1, h2⟩ := ih h
        exact ⟨h1, List.mem_cons_of_mem _ h2⟩

/-- Witness for C10: on an unsorted list the returned line's timestamp still
does not exceed the position. -/
theorem findCurrentLyricLine_sound_witness :
    (⟨"z", 1⟩ : LyricLine).time ≤ (5 : Rat) ∧
    (⟨"z", 1⟩ : LyricLine) ∈ [⟨"y", 9⟩, ⟨"x", 3⟩, ⟨"z", 1⟩] :=
  findCurrentLyricLine_sound [⟨"y", 9⟩, ⟨"x", 3⟩, ⟨"z", 1⟩] 5 ⟨"z", 1⟩ (by decide)

/-- Embeds the result type of the lyric fetchers:
`{ syncedLyrics: LyricLine[]; plainLyrics: string }`. -/
structure FetchResult where
  syncedLyrics : List LyricLine
  plainLyrics : String
deriving Repr, DecidableEq

/-- The outcome of invoking one adapter (`fetchFromLrcLib`, `fetchFromNetease`
or `fetchFromQQMusic`): either a resolved result or a thrown error, here
identified by its message. -/
abbrev AdapterOutcome := Except String FetchResult

/-- The generic error thrown by `fetchSynchronizedLyrics` when no adapter
recorded an error: `new Error('No lyrics found in any source')`. -/
def noLyricsError : String := "No lyrics found in any source"

/-- Embeds the `for (const source of sources)` loop of
`fetchSynchronizedLyrics` together with its `lastError` accumulator.  The
first component is the value returned or thrown; the second counts how many
adapters were invoked before the loop stopped. -/
def fetchLoop : List AdapterOutcome → Option String → Except String FetchResult × Nat
  | [], lastError => (Except.error (lastError.getD noLyricsError), 0)
  | Except.ok result :: rest, lastError =>
      if result.syncedLyrics.length > 0 then (Except.ok result, 1)
      else ((fetchLoop rest lastError).1, (fetchLoop rest lastError).2 + 1)
  | Except.error e :: rest, _lastError =>
      ((fetchLoop rest (some e)).1, (fetchLoop rest (some e)).2 + 1)

/-- Embeds `fetchSynchronizedLyrics`, applied to the (already determined)
outcomes of the adapters in their fixed priority order
`[fetchFromLrcLib, fetchFromNetease, fetchFromQQMusic]`. -/
def fetchSynchronizedLyrics (sources : List AdapterOutcome) : Except String FetchResult :=
  (fetchLoop sources none).1

/-- How many adapters `fetchSynchronizedLyrics` invokes on the given source
list before stopping. -/
def adaptersInvoked (sources : List AdapterOutcome) : Nat :=
  (fetchLoop sources none).2

/-- An adapter outcome past which the loop continues: a thrown error or a
success with an empty synced-line set. -/
def adapterSkipped : AdapterOutcome → Bool
  | Except.ok result => result.syncedLyrics.isEmpty
  | Except.error _ => true

/-- The `lastError` accumulator after folding the outcomes over an initial
value: the error of the last failing adapter, if any. -/
def lastErrorFrom (sources : List AdapterOutcome) (init : Option String) : Option String :=
  sources.foldl
    (fun acc s => match s with
      | Except.error e => some e
      | Except.ok _ => acc)
    init

theorem fetchLoop_of_skipped_head {s : AdapterOutcome} {rest : List AdapterOutcome}
    {le : Option String} (h : adapterSkipped s = true) :
    fetchLoop (s :: rest) le =
      ((fetchLoop rest (lastErrorFrom [s] le)).1, (fetchLoop rest (lastErrorFrom [s] le)).2 + 1) := by
  cases s with
  | ok result =>
    simp only [adapterSkipped, List.isEmpty_iff] at h
    simp [fetchLoop, lastErrorFrom, h]
  | error e =>
    simp [fetchLoop, lastErrorFrom]

theorem fetchLoop_ok_nonempty :
    ∀ (sources : List AdapterOutcome) (le : Option String) (r : FetchResult),
      (fetchLoop sources le).1 = Except.ok r → r.syncedLyrics ≠ [] := by
  intro sources
  induction sources with
  | nil => intro le r h; cases h
  | cons s rest ih =>
    intro le r h
    cases s with
    | ok result =>
      by_cases hlen : result.syncedLyrics.length > 0
      · simp only [fetchLoop, if_pos hlen] at h
        cases h
        exact List.ne_nil_of_length_pos hlen
      · simp only [fetchLoop, if_neg hlen] at h
        exact ih le r h
    | error e =>
      simp only [fetchLoop] at h
      exact ih (some e) r h

theorem fetchLoop_error_all_skipped :
    ∀ (sources : List AdapterOutcome) (le : Option String) (e : String),
      (fetchLoop sources le).1 = Except.error e →
      ∀ s ∈ sources, adapterSkipped s = true := by
  intro sources
  induction sources with
  | nil => intro le e _ s hs; cases hs
  | cons s rest ih =>
    intro le e h x hx
    cases s with
    | ok result =>
      by_cases hlen : result.syncedLyrics.length > 0
      · simp only [fetchLoop, if_pos hlen] at h
        cases h
      · simp only [fetchLoop, if_neg hlen] at h
        rcases List.mem_cons.mp hx with rfl | hx'
        · simpa [adapterSkipped, List.isEmpty_iff] using
            List.length_eq_zero.mp (Nat.le_zero.mp (Nat.not_lt.mp hlen))
        · exact ih le e h x hx'
    | error e' =>
      simp only [fetchLoop] at h
      rcases List.mem_cons.mp hx with rfl | hx'
      · rfl
      · exact ih (some e') e h x hx'

theorem fetchLoop_all_skipped :
    ∀ (sources : List AdapterOutcome) (le : Option String),
      (∀ s ∈ sources, adapterSkipped s = true) →
      fetchLoop sources le =
        (Except.error ((lastErrorFrom sources le).getD noLyricsError), sources.length) := by
  intro sources
  induction sources with
  | nil => intro le _; rfl
  | cons s rest ih =>
    intro le hall
    cases s with
    | ok result =>
      have hempty : result.syncedLyrics = [] := by
        simpa [adapterSkipped, List.isEmpty_iff] using hall _ (List.mem_cons_self _ _)
      have hlen : ¬ result.syncedLyrics.length > 0 := by simp [hempty]
      simp only [fetchLoop, if_neg hlen, lastErrorFrom, List.foldl_cons, List.length_cons]
      rw [show ∀ p : Except String FetchResult × Nat, (p.1, p.2 + 1) = (p.1, p.2 + 1) from fun _ => rfl]
      have := ih le (fun x hx => hall x (List.mem_cons_of_mem _ hx))
      simp only [lastErrorFrom] at this
      rw [this]
    | error e =>
      simp only [fetchLoop, lastErrorFrom, List.foldl_cons, List.length_cons]
      have := ih (some e) (fun x hx => hall x (List.mem_cons_of_mem _ hx))
      simp only [lastErrorFrom] at this
      rw [this]

/-- C3: the resolver iterates the adapters in their fixed order; the first
adapter that succeeds with at least one synced line is returned immediately
and no later adapter is invoked, while failures and empty-line successes
cause the loop to continue. -/
theorem fetchSynchronizedLyrics_short_circuits
    (pre post : List AdapterOutcome) (r : FetchResult)
    (hpre : ∀ s ∈ pre, adapterSkipped s = true) (hr : r.syncedLyrics ≠ []) :
    fetchSynchronizedLyrics (pre ++ Except.ok r :: post) = Except.ok r ∧
    adaptersInvoked (pre ++ Except.ok r :: post) = pre.length + 1 := by
  have key : ∀ (pre : List AdapterOutcome) (le : Option String),
      (∀ s ∈ pre, adapterSkipped s = true) →
      fetchLoop (pre ++ Except.ok r :: post) le = (Except.ok r, pre.length + 1) := by
    intro pre
    induction pre with
    | nil =>
      intro le _
      have hlen : r.syncedLyrics.length > 0 := List.length_pos.mpr hr
      simp [fetchLoop, if_pos hlen]
    | cons s rest ih =>
      intro le hall
      rw [List.cons_append, fetchLoop_of_skipped_head (hall _ (List.mem_cons_self _ _)),
        ih _ (fun x hx => hall x (List.mem_cons_of_mem _ hx))]
      simp
  exact ⟨congrArg Prod.fst (key pre none hpre),
    (congrArg Prod.snd (key pre none hpre)).trans rfl⟩

/-- Witness for C3: with a failing first adapter and a succeeding second
adapter, the second adapter's three-line result is returned and the third
adapter is never invoked (exactly two invocations). -/
theorem fetchSynchronizedLyrics_short_circuits_witness :
    fetchSynchronizedLyrics
        [Except.error "A failed",
         Except.ok ⟨[⟨"l1", 0⟩, ⟨"l2", 1000⟩, ⟨"l3", 2000⟩], "p"⟩,
         Except.ok ⟨[⟨"unused", 0⟩], "unused"⟩] =
      Except.ok ⟨[⟨"l1", 0⟩, ⟨"l2", 1000⟩, ⟨"l3", 2000⟩], "p"⟩ ∧
    adaptersInvoked
        [Except.error "A failed",
         Except.ok ⟨[⟨"l1", 0⟩, ⟨"l2", 1000⟩, ⟨"l3", 2000⟩], "p"⟩,
         Except.ok ⟨[⟨"unused", 0⟩], "unused"⟩] = 2 :=
  fetchSynchronizedLyrics_short_circuits
    [Except.error "A failed"]
    [Except.ok ⟨[⟨"unused", 0⟩], "unused"⟩]
    ⟨[⟨"l1", 0⟩, ⟨"l2", 1000⟩, ⟨"l3", 2000⟩], "p"⟩
    (by decide) (by decide)

/-- C4: the resolver fails exactly when every adapter fails or returns an
empty line set; the surfaced error is the last adapter error, or the generic
"no lyrics" error when no adapter threw; and a successful resolution never
carries zero synced lines. -/
theorem fetchSynchronizedLyrics_exhaustion (sources : List AdapterOutcome) :
    ((∃ e, fetchSynchronizedLyrics sources = Except.error e) ↔
       ∀ s ∈ sources, adapterSkipped s = true) ∧
    ((∀ s ∈ sources, adapterSkipped s = true) →
       fetchSynchronizedLyrics sources =
         Except.error ((lastErrorFrom sources none).getD noLyricsError)) ∧
    (∀ r, fetchSynchronizedLyrics sources = Except.ok r → r.syncedLyrics ≠ []) := by
  refine ⟨⟨fun ⟨e, he⟩ => fetchLoop_error_all_skipped sources none e he, fun hall => ?_⟩,
    fun hall => congrArg Prod.fst (fetchLoop_all_skipped sources none hall),
    fun r hr => fetchLoop_ok_nonempty sources none r hr⟩
  exact ⟨_, congrArg Prod.fst (fetchLoop_all_skipped sources none hall)⟩

/-- Witness for C4: two failing adapters and one empty-line success exhaust
the resolver, which surfaces the second adapter's error; and with no failing
adapter at all the generic error is surfaced. -/
theorem fetchSynchronizedLyrics_exhaustion_witness :
    fetchSynchronizedLyrics
        [Except.error "e1", Except.ok ⟨[], "plain"⟩, Except.error "e2"] =
      Except.error "e2" ∧
    fetchSynchronizedLyrics [Except.ok ⟨[], "plain"⟩] =
      Except.error "No lyrics found in any source" := by
  constructor
  · exact (fetchSynchronizedLyrics_exhaustion
      [Except.error "e1", Except.ok ⟨[], "plain"⟩, Except.error "e2"]).2.1 (by decide)
  · exact (fetchSynchronizedLyrics_exhaustion [Except.ok ⟨[], "plain"⟩]).2.1 (by decide)

/-- Embeds the `CachedLyrics` interface: the value stored in `lyricsCache`,
stamped with the `Date.now()` timestamp of the fetch. -/
structure CachedLyrics where
  syncedLyrics : List LyricLine
  plainLyrics : String
  timestamp : Int
deriving Repr, DecidableEq

/-- The `lyricsCache` JavaScript `Map`, keyed by track id. -/
def LyricsCache : Type := String → Option CachedLyrics

/-- The 24-hour time-to-live used at the cache check:
`24 * 60 * 60 * 1000` milliseconds. -/
def cacheTtlMs : Int := 24 * 60 * 60 * 1000

/-- Embeds the cache read of `debouncedUpdate`:
`const cached = lyricsCache.get(trackId);
 if (cached && Date.now() - cached.timestamp < 24 * 60 * 60 * 1000) ...`.
An entry counts as present exactly when it exists and is unexpired; the map
itself is left untouched (expired entries are not deleted on read). -/
def cacheGet (cache : LyricsCache) (key : String) (now : Int) : Option CachedLyrics :=
  match cache key with
  | some cached => if now - cached.timestamp < cacheTtlMs then some cached else none
  | none => none

/-- Embeds `lyricsCache.set(trackId, { syncedLyrics, plainLyrics, timestamp: Date.now() })`:
overwrite whatever was stored under the key. -/
def cacheSet (cache : LyricsCache) (key : String) (entry : CachedLyrics) : LyricsCache :=
  fun k => if k = key then some entry else cache k

/-- C5: a cache lookup succeeds exactly when an entry exists and
`now - timestamp` is strictly below 24 hours; an entry written at time `T`
is returned at `T + 23h59m` and treated as absent at `T + 24h01m`; an
expired entry is not deleted by the read (the map still holds it); and a
write overwrites any prior entry for the key with the current timestamp. -/
theorem cacheGet_ttl (cache : LyricsCache) (key : String) (now : Int)
    (entry : CachedLyrics) (lyr : List LyricLine) (plain : String) (T : Int) :
    ((∃ c, cacheGet cache key now = some c) ↔
       ∃ c, cache key = some c ∧ now - c.timestamp < cacheTtlMs) ∧
    (cacheGet (cacheSet cache key ⟨lyr, plain, T⟩) key (T + 86340000) =
       some ⟨lyr, plain, T⟩) ∧
    (cacheGet (cacheSet cache key ⟨lyr, plain, T⟩) key (T + 86460000) = none) ∧
    (cache key = some entry → now - entry.timestamp ≥ cacheTtlMs →
       cacheGet cache key now = none ∧ cache key = some entry) ∧
    (cacheSet cache key entry key = some entry) := by
  refine ⟨⟨fun ⟨c, hc⟩ => ?_, fun ⟨c, hc, hfresh⟩ => ?_⟩, ?_, ?_, fun he hexp => ?_, ?_⟩
  · cases hk : cache key with
    | none => simp [cacheGet, hk] at hc
    | some c' =>
      by_cases hf : now - c'.timestamp < cacheTtlMs
      · exact ⟨c', rfl, hf⟩
      · simp [cacheGet, hk, hf] at hc
  · exact ⟨c, by simp [cacheGet, hc, hfresh]⟩
  · have hfresh : (86340000 : Int) < cacheTtlMs := by unfold cacheTtlMs; omega
    simp [cacheGet, cacheSet, hfresh]
  · have hstale : ¬ ((86460000 : Int) < cacheTtlMs) := by unfold cacheTtlMs; omega
    simp [cacheGet, cacheSet, hstale]
  · refine ⟨?_, he⟩
    simp only [cacheGet, he]
    rw [if_neg (not_lt.mpr hexp)]
  · simp [cacheSet]

/-- Witness for C5: a concrete entry written at time 0 into the empty cache
is present 50 minutes later, still present at 23h59m, absent at 24h01m, and
an expired entry is reported absent while remaining in the map. -/
theorem cacheGet_ttl_witness :
    cacheGet (cacheSet (fun _ => none) "k" ⟨[⟨"l", 0⟩], "p", 0⟩) "k" 86340000 =
      some ⟨[⟨"l", 0⟩], "p", 0⟩ ∧
    cacheGet (cacheSet (fun _ => none) "k" ⟨[⟨"l", 0⟩], "p", 0⟩) "k" 86460000 = none ∧
    cacheGet (cacheSet (fun _ => none) "k" ⟨[⟨"l", 0⟩], "p", 0⟩) "k" 86460000 = none ∧
    cacheSet (fun _ => none) "k" ⟨[⟨"l", 0⟩], "p", 0⟩ "k" = some ⟨[⟨"l", 0⟩], "p", 0⟩ := by
  have h := cacheGet_ttl (fun _ => none) "k" 86460000 ⟨[⟨"l", 0⟩], "p", 0⟩ [⟨"l", 0⟩] "p" 0
  have h2 := (cacheGet_ttl (cacheSet (fun _ => none) "k" ⟨[⟨"l", 0⟩], "p", 0⟩) "k" 86460000
      ⟨[⟨"l", 0⟩], "p", 0⟩ [⟨"l", 0⟩] "p" 0).2.2.2.1 (by decide) (by decide)
  exact ⟨by simpa using h.2.1, by simpa using h.2.2.1, h2.1, h.2.2.2.2⟩

/-- Embeds the track identity key of `debouncedUpdate`:
``const trackId = `${track.artist}-${track.title}`;``. -/
def trackId (artist title : String) : String := artist ++ "-" ++ title

/-- Counterexample for C9: the key construction is not injective on the
`(artist, title)` pair — the pairs `("a-b", "c")` and `("a", "b-c")` differ
but produce the same key `"a-b-c"`. -/
theorem trackId_not_injective :
    trackId "a-b" "c" = trackId "a" "b-c" ∧
    ¬ ("a-b" = "a" ∧ "c" = "b-c") :=
  ⟨rfl, by decide⟩

theorem append_sep_inj :
    ∀ (l₁ l₂ m₁ m₂ : List Char), '-' ∉ l₁ → '-' ∉ l₂ →
      l₁ ++ '-' :: m₁ = l₂ ++ '-' :: m₂ → l₁ = l₂ ∧ m₁ = m₂ := by
  intro l₁
  induction l₁ with
  | nil =>
    intro l₂ m₁ m₂ _ h₂ heq
    cases l₂ with
    | nil => exact ⟨rfl, (List.cons.inj heq).2⟩
    | cons c l₂' =>
      exfalso
      have : c = '-' := ((List.cons.inj heq).1).symm
      exact h₂ (this ▸ List.mem_cons_self c l₂')
  | cons c l₁' ih =>
    intro l₂ m₁ m₂ h₁ h₂ heq
    cases l₂ with
    | nil =>
      exfalso
      have : c = '-' := (List.cons.inj heq).1
      exact h₁ (this ▸ List.mem_cons_self c l₁')
    | cons d l₂' =>
      obtain ⟨hcd, htl⟩ := List.cons.inj heq
      obtain ⟨ha, hb⟩ := ih l₂' m₁ m₂ (fun h => h₁ (List.mem_cons_of_mem _ h))
        (fun h => h₂ (List.mem_cons_of_mem _ h)) htl
      exact ⟨by rw [hcd, ha], hb⟩

/-- C9 (amended): the key `artist ++ "-" ++ title` is stable — two snapshots
with unchanged artist and title always give the same key — and it separates
tracks whenever the artists contain no `'-'` character; without that
restriction the construction is not injective (see the counterexample). -/
theorem trackId_inj_of_sep_free (a₁ t₁ a₂ t₂ : String)
    (h₁ : '-' ∉ a₁.data) (h₂ : '-' ∉ a₂.data) :
    trackId a₁ t₁ = trackId a₂ t₂ ↔ a₁ = a₂ ∧ t₁ = t₂ := by
  constructor
  · intro h
    have hdata : a₁.data ++ '-' :: t₁.data = a₂.data ++ '-' :: t₂.data := by
      have := congrArg String.data h
      simpa [trackId, String.data_append] using this
    obtain ⟨ha, ht⟩ := append_sep_inj a₁.data a₂.data t₁.data t₂.data h₁ h₂ hdata
    exact ⟨String.ext ha, String.ext ht⟩
  · intro ⟨ha, ht⟩
    rw [ha, ht]

/-- Witness for C9 (amended): for the dash-free artists `"Foo"` and `"Bar"`,
keys agree exactly when artist and title agree. -/
theorem trackId_inj_of_sep_free_witness :
    (trackId "Foo" "Song" = trackId "Foo" "Song" ↔ "Foo" = "Foo" ∧ "Song" = "Song") ∧
    (trackId "Foo" "Song" = trackId "Bar" "Song" ↔ "Foo" = "Bar" ∧ "Song" = "Song") :=
  ⟨trackId_inj_of_sep_free "Foo" "Song" "Foo" "Song" (by decide) (by decide),
   trackId_inj_of_sep_free "Foo" "Song" "Bar" "Song" (by decide) (by decide)⟩

/-- Embeds JavaScript `String.prototype.includes(needle)` on the character
level: `startsWithChars needle hay` checks that `needle` occurs at the start
of `hay`. -/
def startsWithChars : List Char → List Char → Bool
  | [], _ => true
  | _ :: _, [] => false
  | a :: as, b :: bs => a == b && startsWithChars as bs

/-- `containsChars needle hay` checks that `needle` occurs somewhere in
`hay` (JavaScript `hay.includes(needle)`). -/
def containsChars (needle : List Char) : List Char → Bool
  | [] => startsWithChars needle []
  | c :: cs => startsWithChars needle (c :: cs) || containsChars needle cs

/-- `strIncludes hay needle` embeds `hay.includes(needle)`. -/
def strIncludes (hay needle : String) : Bool := containsChars needle.data hay.data

/-- Embeds `cleanLyrics(text)`: split the transcript on newlines, drop the
lines containing any of the credits/metadata markers (case-insensitively via
`toLowerCase`), and join the remainder with newlines. -/
def cleanLyrics (text : String) : String :=
  String.intercalate "\n" ((text.splitOn "\n").filter (fun line =>
    let lower := line.toLower
    !(strIncludes lower "作词") && !(strIncludes lower "作曲") &&
    !(strIncludes lower "编曲") && !(strIncludes lower "producer") &&
    !(strIncludes lower "composer") && !(strIncludes lower "lyricist")))

/-- The shared mutable state of the reconciliation loop that the completion
of a lyric fetch can touch: the module-level `lastTrackId`, `currentLyrics`
and `fullLyrics` variables and the `lyricsCache` map.  The status-bar and
panel collaborators are outside this model. -/
structure TrackerState where
  lastTrackId : String
  currentLyrics : List LyricLine
  fullLyrics : String
  cache : LyricsCache

/-- Embeds the track-change step of `debouncedUpdate` (lines
`lastTrackId = trackId; currentLyrics = [];`): record the new id as active
immediately and clear the current-lyrics buffer, before any fetch resolves. -/
def onTrackChange (s : TrackerState) (newTrackId : String) : TrackerState :=
  { s with lastTrackId := newTrackId, currentLyrics := [] }

/-- Embeds what a *successful* completion of
`await fetchSynchronizedLyrics(...)` issued for `fetchedTrackId` does to the
shared state: first the result is written to the cache under the id the
fetch was issued for (`lyricsCache.set(trackId, {..., timestamp: Date.now()})`
— this happens before any staleness check), then, only if
`lastTrackId === trackId` still holds, the result is adopted as the active
lyric set (`currentLyrics = ...; fullLyrics = cleanLyrics(...)`). -/
def onFetchSuccess (s : TrackerState) (fetchedTrackId : String) (res : FetchResult)
    (now : Int) : TrackerState :=
  let s' := { s with
    cache := cacheSet s.cache fetchedTrackId ⟨res.syncedLyrics, res.plainLyrics, now⟩ }
  if s'.lastTrackId = fetchedTrackId then
    { s' with currentLyrics := res.syncedLyrics, fullLyrics := cleanLyrics res.plainLyrics }
  else s'

/-- Embeds the `catch` handler around the fetch: on a failed completion the
code unconditionally clears the active lyric set
(`currentLyrics = []; fullLyrics = '';`), with no staleness check. -/
def onFetchFailure (s : TrackerState) : TrackerState :=
  { s with currentLyrics := [], fullLyrics := "" }

/-- C2: in either interleaving of the two completions after the track
changes from X to Y — Y's fetch resolving before or after X's stale fetch —
the active lyric set ends up being Y's result; X's successful stale result
never overwrites it.  The single-threaded event loop makes each completion
handler atomic, so an interleaving is a sequence of handler applications. -/
theorem staleResult_never_overwrites (s : TrackerState) (X Y : String)
    (rX rY : FetchResult) (tX tY : Int) (hXY : X ≠ Y) :
    ((onFetchSuccess (onFetchSuccess (onTrackChange s Y) Y rY tY) X rX tX).currentLyrics
        = rY.syncedLyrics ∧
     (onFetchSuccess (onFetchSuccess (onTrackChange s Y) Y rY tY) X rX tX).fullLyrics
        = cleanLyrics rY.plainLyrics) ∧
    ((onFetchSuccess (onFetchSuccess (onTrackChange s Y) X rX tX) Y rY tY).currentLyrics
        = rY.syncedLyrics ∧
     (onFetchSuccess (onFetchSuccess (onTrackChange s Y) X rX tX) Y rY tY).fullLyrics
        = cleanLyrics rY.plainLyrics) := by
  have hYX : Y ≠ X := fun h => hXY h.symm
  constructor
  · constructor <;>
      simp [onFetchSuccess, onTrackChange, hYX]
  · constructor <;>
      simp [onFetchSuccess, onTrackChange, hYX]

/-- Witness for C2: a concrete run with tracks `"X"` and `"Y"` and concrete
results leaves Y's lines active in both interleavings. -/
theorem staleResult_never_overwrites_witness :
    ((onFetchSuccess (onFetchSuccess
        (onTrackChange ⟨"X", [], "", fun _ => none⟩ "Y") "Y" ⟨[⟨"y1", 0⟩], "py"⟩ 10)
        "X" ⟨[⟨"x1", 0⟩], "px"⟩ 20).currentLyrics = [⟨"y1", 0⟩] ∧
     (onFetchSuccess (onFetchSuccess
        (onTrackChange ⟨"X", [], "", fun _ => none⟩ "Y") "Y" ⟨[⟨"y1", 0⟩], "py"⟩ 10)
        "X" ⟨[⟨"x1", 0⟩], "px"⟩ 20).fullLyrics = cleanLyrics "py") ∧
    ((onFetchSuccess (onFetchSuccess
        (onTrackChange ⟨"X", [], "", fun _ => none⟩ "Y") "X" ⟨[⟨"x1", 0⟩], "px"⟩ 20)
        "Y" ⟨[⟨"y1", 0⟩], "py"⟩ 10).currentLyrics = [⟨"y1", 0⟩] ∧
     (onFetchSuccess (onFetchSuccess
        (onTrackChange ⟨"X", [], "", fun _ => none⟩ "Y") "X" ⟨[⟨"x1", 0⟩], "px"⟩ 20)
        "Y" ⟨[⟨"y1", 0⟩], "py"⟩ 10).fullLyrics = cleanLyrics "py") :=
  staleResult_never_overwrites ⟨"X", [], "", fun _ => none⟩ "X" "Y"
    ⟨[⟨"x1", 0⟩], "px"⟩ ⟨[⟨"y1", 0⟩], "py"⟩ 20 10 (by decide)

/-- Counterexample for C8: with the active track `"Y"`, the successful
completion of a fetch issued for `"X"` is *not* free of shared-state
mutation — the result is written to the cache under `"X"` even though the
identities differ (the `lyricsCache.set` precedes the staleness check); and
a failed stale completion clears the active lyric set. -/
theorem staleCompletion_mutates_state :
    (⟨"Y", [⟨"y1", 0⟩], "py", fun _ => none⟩ : TrackerState).lastTrackId ≠ "X" ∧
    (onFetchSuccess ⟨"Y", [⟨"y1", 0⟩], "py", fun _ => none⟩ "X" ⟨[⟨"x1", 0⟩], "px"⟩ 5).cache "X"
      = some ⟨[⟨"x1", 0⟩], "px", 5⟩ ∧
    (⟨"Y", [⟨"y1", 0⟩], "py", fun _ => none⟩ : TrackerState).cache "X" = none ∧
    (onFetchFailure ⟨"Y", [⟨"y1", 0⟩], "py", fun _ => none⟩).currentLyrics = [] ∧
    (⟨"Y", [⟨"y1", 0⟩], "py", fun _ => none⟩ : TrackerState).currentLyrics ≠ [] := by
  refine ⟨by decide, ?_, rfl, rfl, by decide⟩
  simp [onFetchSuccess, cacheSet]

/-- C8 (amended): when a fetch issued for `K` completes successfully while
the active track id differs from `K`, the active lyric set
(`currentLyrics`/`fullLyrics`) and the active id are unchanged — adoption
happens only on an identity match — but the result *is* stored in the cache
under `K` unconditionally, because the cache write precedes the identity
check; and a failed completion clears the active lyric set regardless of
identity. -/
theorem staleCompletion_amended (s : TrackerState) (K : String) (r : FetchResult)
    (t : Int) (h : s.lastTrackId ≠ K) :
    (onFetchSuccess s K r t).currentLyrics = s.currentLyrics ∧
    (onFetchSuccess s K r t).fullLyrics = s.fullLyrics ∧
    (onFetchSuccess s K r t).lastTrackId = s.lastTrackId ∧
    (onFetchSuccess s K r t).cache K = some ⟨r.syncedLyrics, r.plainLyrics, t⟩ ∧
    (onFetchFailure s).currentLyrics = [] ∧
    (onFetchFailure s).fullLyrics = "" := by
  refine ⟨?_, ?_, ?_, ?_, rfl, rfl⟩ <;>
    simp [onFetchSuccess, onFetchFailure, cacheSet, h]

/-- Witness for C8 (amended): the concrete stale completion from the
counterexample leaves the active lyric set untouched while caching under the
stale key. -/
theorem staleCompletion_amended_witness :
    (onFetchSuccess ⟨"Y", [⟨"y1", 0⟩], "py", fun _ => none⟩ "X"
      ⟨[⟨"x1", 0⟩], "px"⟩ 5).currentLyrics = [⟨"y1", 0⟩] ∧
    (onFetchSuccess ⟨"Y", [⟨"y1", 0⟩], "py", fun _ => none⟩ "X"
      ⟨[⟨"x1", 0⟩], "px"⟩ 5).fullLyrics = "py" ∧
    (onFetchSuccess ⟨"Y", [⟨"y1", 0⟩], "py", fun _ => none⟩ "X"
      ⟨[⟨"x1", 0⟩], "px"⟩ 5).lastTrackId = "Y" ∧
    (onFetchSuccess ⟨"Y", [⟨"y1", 0⟩], "py", fun _ => none⟩ "X"
      ⟨[⟨"x1", 0⟩], "px"⟩ 5).cache "X" = some ⟨[⟨"x1", 0⟩], "px", 5⟩ ∧
    (onFetchFailure ⟨"Y", [⟨"y1", 0⟩], "py", fun _ => none⟩).currentLyrics = [] ∧
    (onFetchFailure ⟨"Y", [⟨"y1", 0⟩], "py", fun _ => none⟩).fullLyrics = "" :=
  staleCompletion_amended ⟨"Y", [⟨"y1", 0⟩], "py", fun _ => none⟩ "X"
    ⟨[⟨"x1", 0⟩], "px"⟩ 5 (by decide)

/-- Embeds the `LrcLibSearchResult` interface. -/
structure LrcLibSearchResult where
  id : Int
  trackName : String
  artistName : String
  albumName : String
  duration : Rat
  instrumentalFlag : Bool
  syncedFlag : Bool
deriving Repr, DecidableEq

/-- Embeds the comparator passed to `results.sort` in `sortSearchResults`:
prefer synced lyrics, then exact case-insensitive artist matches, then exact
case-insensitive title matches, else report a tie (`0`). -/
def compareSearchResults (targetArtist targetTitle : String)
    (a b : LrcLibSearchResult) : Int :=
  if a.syncedFlag && !b.syncedFlag then -1
  else if !a.syncedFlag && b.syncedFlag then 1
  else if (a.artistName.toLower == targetArtist.toLower) &&
          !(b.artistName.toLower == targetArtist.toLower) then -1
  else if !(a.artistName.toLower == targetArtist.toLower) &&
          (b.artistName.toLower == targetArtist.toLower) then 1
  else if (a.trackName.toLower == targetTitle.toLower) &&
          !(b.trackName.toLower == targetTitle.toLower) then -1
  else if !(a.trackName.toLower == targetTitle.toLower) &&
          (b.trackName.toLower == targetTitle.toLower) then 1
  else 0

/-- The non-strict order induced by the comparator: `a` may come before `b`. -/
abbrev rankLe (targetArtist targetTitle : String) (a b : LrcLibSearchResult) : Prop :=
  compareSearchResults targetArtist targetTitle a b ≤ 0

/-- Embeds `sortSearchResults(results, targetArtist, targetTitle)`.
ECMAScript 2019 `Array.prototype.sort` with a consistent comparator is
specified to be a stable sort; with a consistent comparator every stable
sort produces the same list, so the model uses the stable
`List.insertionSort` over the comparator's non-strict order. -/
def sortSearchResults (results : List LrcLibSearchResult)
    (targetArtist targetTitle : String) : List LrcLibSearchResult :=
  List.insertionSort (rankLe targetArtist targetTitle) results

/-- The three boolean ranking keys of one search result: synced flag, exact
case-insensitive artist match, exact case-insensitive title match. -/
def rankKey (targetArtist targetTitle : String) (x : LrcLibSearchResult) :
    Bool × Bool × Bool :=
  (x.syncedFlag, x.artistName.toLower == targetArtist.toLower,
   x.trackName.toLower == targetTitle.toLower)

/-- The comparator on the level of ranking keys. -/
def cmpKey : Bool × Bool × Bool → Bool × Bool × Bool → Int
  | (s1, a1, t1), (s2, a2, t2) =>
    if s1 && !s2 then -1
    else if !s1 && s2 then 1
    else if a1 && !a2 then -1
    else if !a1 && a2 then 1
    else if t1 && !t2 then -1
    else if !t1 && t2 then 1
    else 0

theorem compare_eq_cmpKey (ta tt : String) (a b : LrcLibSearchResult) :
    compareSearchResults ta tt a b = cmpKey (rankKey ta tt a) (rankKey ta tt b) := rfl

theorem cmpKey_total : ∀ k1 k2, cmpKey k1 k2 ≤ 0 ∨ cmpKey k2 k1 ≤ 0 := by decide

theorem cmpKey_trans :
    ∀ k1 k2 k3, cmpKey k1 k2 ≤ 0 → cmpKey k2 k3 ≤ 0 → cmpKey k1 k3 ≤ 0 := by decide

theorem cmpKey_le_synced :
    ∀ k1 k2 : Bool × Bool × Bool, cmpKey k1 k2 ≤ 0 → k2.1 = true → k1.1 = true := by decide

theorem cmpKey_le_artist :
    ∀ k1 k2 : Bool × Bool × Bool, cmpKey k1 k2 ≤ 0 → k1.1 = k2.1 →
      k2.2.1 = true → k1.2.1 = true := by decide

theorem cmpKey_le_title :
    ∀ k1 k2 : Bool × Bool × Bool, cmpKey k1 k2 ≤ 0 → k1.1 = k2.1 → k1.2.1 = k2.2.1 →
      k2.2.2 = true → k1.2.2 = true := by decide

theorem cmpKey_refl_le : ∀ k, cmpKey k k ≤ 0 := by decide

theorem sortSearchResults_sorted (results : List LrcLibSearchResult) (ta tt : String) :
    (sortSearchResults results ta tt).Pairwise (rankLe ta tt) := by
  haveI : IsTotal LrcLibSearchResult (rankLe ta tt) :=
    ⟨fun a b => cmpKey_total (rankKey ta tt a) (rankKey ta tt b)⟩
  haveI : IsTrans LrcLibSearchResult (rankLe ta tt) :=
    ⟨fun a b c h1 h2 =>
      cmpKey_trans (rankKey ta tt a) (rankKey ta tt b) (rankKey ta tt c) h1 h2⟩
  exact List.sorted_insertionSort (rankLe ta tt) results

/-- The two search results of the spec's ranking example: an unsynced exact
artist match and a synced case-variant artist match. -/
def exampleUnsynced : LrcLibSearchResult :=
  ⟨1, "Song", "Foo", "Album", 200, false, false⟩

/-- The synced candidate of the spec's ranking example. -/
def exampleSynced : LrcLibSearchResult :=
  ⟨2, "Song", "foo", "Album", 200, false, true⟩

/-- C6: the ranking orders any synced candidate before any unsynced one;
among candidates with equal synced flags, exact case-insensitive artist
matches come first; among those still tied, exact case-insensitive title
matches come first; candidates tied on all three keys keep their upstream
order (stability); the output is a permutation of the input; and on the
spec's example the synced result is ranked first regardless of list order. -/
theorem sortSearchResults_ranking (results : List LrcLibSearchResult) (ta tt : String) :
    (sortSearchResults results ta tt).Pairwise
      (fun a b => b.syncedFlag = true → a.syncedFlag = true) ∧
    (sortSearchResults results ta tt).Pairwise
      (fun a b => a.syncedFlag = b.syncedFlag →
        (b.artistName.toLower == ta.toLower) = true →
        (a.artistName.toLower == ta.toLower) = true) ∧
    (sortSearchResults results ta tt).Pairwise
      (fun a b => a.syncedFlag = b.syncedFlag →
        (a.artistName.toLower == ta.toLower) = (b.artistName.toLower == ta.toLower) →
        (b.trackName.toLower == tt.toLower) = true →
        (a.trackName.toLower == tt.toLower) = true) ∧
    (∀ a b, rankKey ta tt a = rankKey ta tt b →
       List.Sublist [a, b] results →
       List.Sublist [a, b] (sortSearchResults results ta tt)) ∧
    (sortSearchResults results ta tt).Perm results ∧
    (sortSearchResults [exampleUnsynced, exampleSynced] "Foo" "Song").head? =
      some exampleSynced ∧
    (sortSearchResults [exampleSynced, exampleUnsynced] "Foo" "Song").head? =
      some exampleSynced := by
  have hsort := sortSearchResults_sorted results ta tt
  refine ⟨?_, ?_, ?_, ?_, List.perm_insertionSort _ _, ?_, ?_⟩
  · exact hsort.imp (fun {a b} h => cmpKey_le_synced (rankKey ta tt a) (rankKey ta tt b) h)
  · exact hsort.imp (fun {a b} h hs ham =>
      cmpKey_le_artist (rankKey ta tt a) (rankKey ta tt b) h hs ham)
  · exact hsort.imp (fun {a b} h hs ham htm =>
      cmpKey_le_title (rankKey ta tt a) (rankKey ta tt b) h hs ham htm)
  · intro a b hk hsub
    refine List.pair_sublist_insertionSort ?_ hsub
    rw [rankLe, compare_eq_cmpKey, hk]
    exact cmpKey_refl_le _
  · rfl
  · rfl

/-- Witness for C6: the stability conjunct applied to two upstream-order
candidates tied on every ranking key. -/
theorem sortSearchResults_ranking_witness :
    List.Sublist [exampleUnsynced, ⟨3, "Song", "Foo", "B", 100, false, false⟩]
      (sortSearchResults [exampleUnsynced, ⟨3, "Song", "Foo", "B", 100, false, false⟩]
        "Zed" "Zed") :=
  (sortSearchResults_ranking [exampleUnsynced, ⟨3, "Song", "Foo", "B", 100, false, false⟩]
    "Zed" "Zed").2.2.2.1 exampleUnsynced ⟨3, "Song", "Foo", "B", 100, false, false⟩
    rfl (List.Sublist.refl _)

/-- Embeds JavaScript `parseInt` on the all-digit capture of the timestamp
regex: the numeric value of a digit string. -/
def digitsToNat (ds : List Char) : Nat :=
  ds.foldl (fun n c => n * 10 + (c.toNat - '0'.toNat)) 0

/-- Embeds JavaScript `String.prototype.trim()` on the character level:
drop leading and trailing whitespace. -/
def trimChars (cs : List Char) : List Char :=
  ((cs.dropWhile Char.isWhitespace).reverse.dropWhile Char.isWhitespace).reverse

/-- Embeds the attempt to match the tail of the regex
`\[(\d+):(\d+\.\d+)\](.*)` right after an opening `[`: three maximal
nonempty digit runs separated by `:` and `.` and closed by `]`, with the
rest of the line as the final capture.  The greedy `\d+` runs are exactly
the maximal digit runs because each is followed by a required non-digit
character, so no backtracking alternative exists. -/
def lrcMatchAfterBracket (cs : List Char) :
    Option (List Char × List Char × List Char × List Char) :=
  match cs.takeWhile Char.isDigit, cs.dropWhile Char.isDigit with
  | [], _ => none
  | d1, ':' :: r2 =>
    match r2.takeWhile Char.isDigit, r2.dropWhile Char.isDigit with
    | [], _ => none
    | d2, '.' :: r4 =>
      match r4.takeWhile Char.isDigit, r4.dropWhile Char.isDigit with
      | [], _ => none
      | d3, ']' :: rest => some (d1, d2, d3, rest)
      | _, _ => none
    | _, _ => none
  | _, _ => none

/-- Embeds the search phase of `line.match(/\[(\d+):(\d+\.\d+)\](.*)/)`:
the regex engine tries each start position from the left; a candidate can
only start at a literal `[`. -/
def lrcSearch : List Char → Option (List Char × List Char × List Char × List Char)
  | [] => none
  | c :: cs =>
    if c = '[' then
      match lrcMatchAfterBracket cs with
      | some m => some m
      | none => lrcSearch cs
    else lrcSearch cs

/-- Embeds the per-line arrow function of the LRC parsers in
`fetchFromNetease` and `fetchFromQQMusic`: on a regex match, build
`{ text: match[3].trim(), time: (minutes*60 + seconds)*1000 }` where
`minutes = parseInt(match[1])` and `seconds = parseFloat(match[2])`
(`match[2]` is `d2.d3`, whose exact decimal value is
`d2 + d3 / 10^|d3|`); on no match return `null` (`none`).  JavaScript
computes the product in binary floating point; the model uses the exact
rational value. -/
def parseLrcLine (line : String) : Option LyricLine :=
  match lrcSearch line.data with
  | some (d1, d2, d3, rest) =>
      some { text := String.mk (trimChars rest),
             time := ((digitsToNat d1 : Rat) * 60 +
               ((digitsToNat d2 : Rat) +
                 (digitsToNat d3 : Rat) / (10 : Rat) ^ d3.length)) * 1000 }
  | none => none

/-- Embeds the whole LRC parsing pipeline of the two tagged-timestamp
adapters: `split('\n').map(line => ...).filter(line => line !== null &&
line.text !== '')`. -/
def parseLrcLyric (lyric : String) : List LyricLine :=
  ((lyric.splitOn "\n").map parseLrcLine).filterMap (fun o =>
    match o with
    | some l => if l.text = "" then none else some l
    | none => none)

theorem takeWhile_dropWhile_middle (p : Char → Bool) :
    ∀ (xs : List Char) (y : Char) (ys : List Char),
      (∀ x ∈ xs, p x = true) → p y = false →
      List.takeWhile p (xs ++ y :: ys) = xs ∧
      List.dropWhile p (xs ++ y :: ys) = y :: ys := by
  intro xs
  induction xs with
  | nil =>
    intro y ys _ hy
    simp [List.takeWhile_cons, List.dropWhile_cons, hy]
  | cons x xs ih =>
    intro y ys hxs hy
    have hx : p x = true := hxs x (List.mem_cons_self _ _)
    have hrec := ih y ys (fun z hz => hxs z (List.mem_cons_of_mem _ hz)) hy
    simp [List.takeWhile_cons, List.dropWhile_cons, hx, hrec.1, hrec.2]

theorem lrcMatchAfterBracket_structured (d1 d2 d3 t : List Char)
    (h1 : d1 ≠ []) (h2 : d2 ≠ []) (h3 : d3 ≠ [])
    (hd1 : ∀ c ∈ d1, Char.isDigit c = true)
    (hd2 : ∀ c ∈ d2, Char.isDigit c = true)
    (hd3 : ∀ c ∈ d3, Char.isDigit c = true) :
    lrcMatchAfterBracket (d1 ++ ':' :: (d2 ++ '.' :: (d3 ++ ']' :: t))) =
      some (d1, d2, d3, t) := by
  have e1 := takeWhile_dropWhile_middle Char.isDigit d1 ':'
    (d2 ++ '.' :: (d3 ++ ']' :: t)) hd1 rfl
  have e2 := takeWhile_dropWhile_middle Char.isDigit d2 '.'
    (d3 ++ ']' :: t) hd2 rfl
  have e3 := takeWhile_dropWhile_middle Char.isDigit d3 ']' t hd3 rfl
  cases d1 with
  | nil => exact absurd rfl h1
  | cons c1 d1' =>
    cases d2 with
    | nil => exact absurd rfl h2
    | cons c2 d2' =>
      cases d3 with
      | nil => exact absurd rfl h3
      | cons c3 d3' =>
        simp only [lrcMatchAfterBracket, e1.1, e1.2, e2.1, e2.2, e3.1, e3.2]

theorem lrcSearch_cons_bracket (cs : List Char)
    (m : List Char × List Char × List Char × List Char)
    (h : lrcMatchAfterBracket cs = some m) :
    lrcSearch ('[' :: cs) = some m := by
  simp [lrcSearch, h]

theorem parseLrcLyric_text_ne_empty (s : String) (l : LyricLine)
    (h : l ∈ parseLrcLyric s) : l.text ≠ "" := by
  unfold parseLrcLyric at h
  obtain ⟨o, _, ho⟩ := List.mem_filterMap.mp h
  cases o with
  | none => cases ho
  | some l' =>
    by_cases he : l'.text = ""
    · simp [he] at ho
    · simp [he] at ho
      exact ho ▸ he

/-- C7: a line of the shape `[d₁:d₂.d₃]text` (nonempty digit runs) parses to
a lyric line carrying `(minutes*60 + seconds)*1000` milliseconds — with
`minutes = parseInt(d₁)` and `seconds` the exact value of `parseFloat` on
`d₂.d₃` — and the trimmed text; the concrete line `"[01:02.50]Hello"`
parses to `{timeMs: 62500, text: "Hello"}`; the unparseable line
`"[bad]text"` is dropped as `none` rather than raising an error (the parser
is a total function); and every line kept by the pipeline has nonempty text
after trimming. -/
theorem parseLrcLine_spec :
    (∀ (d1 d2 d3 t : List Char), d1 ≠ [] → d2 ≠ [] → d3 ≠ [] →
      (∀ c ∈ d1, Char.isDigit c = true) →
      (∀ c ∈ d2, Char.isDigit c = true) →
      (∀ c ∈ d3, Char.isDigit c = true) →
      parseLrcLine (String.mk ('[' :: (d1 ++ ':' :: (d2 ++ '.' :: (d3 ++ ']' :: t))))) =
        some { text := String.mk (trimChars t),
               time := ((digitsToNat d1 : Rat) * 60 +
                 ((digitsToNat d2 : Rat) +
                   (digitsToNat d3 : Rat) / (10 : Rat) ^ d3.length)) * 1000 }) ∧
    parseLrcLine "[01:02.50]Hello" = some ⟨"Hello", 62500⟩ ∧
    parseLrcLine "[bad]text" = none ∧
    (∀ (s : String) (l : LyricLine), l ∈ parseLrcLyric s → l.text ≠ "") := by
  have hgen : ∀ (d1 d2 d3 t : List Char), d1 ≠ [] → d2 ≠ [] → d3 ≠ [] →
      (∀ c ∈ d1, Char.isDigit c = true) →
      (∀ c ∈ d2, Char.isDigit c = true) →
      (∀ c ∈ d3, Char.isDigit c = true) →
      parseLrcLine (String.mk ('[' :: (d1 ++ ':' :: (d2 ++ '.' :: (d3 ++ ']' :: t))))) =
        some { text := String.mk (trimChars t),
               time := ((digitsToNat d1 : Rat) * 60 +
                 ((digitsToNat d2 : Rat) +
                   (digitsToNat d3 : Rat) / (10 : Rat) ^ d3.length)) * 1000 } := by
    intro d1 d2 d3 t h1 h2 h3 hd1 hd2 hd3
    have hmatch := lrcMatchAfterBracket_structured d1 d2 d3 t h1 h2 h3 hd1 hd2 hd3
    have hsearch := lrcSearch_cons_bracket _ _ hmatch
    unfold parseLrcLine
    rw [show (String.mk ('[' :: (d1 ++ ':' :: (d2 ++ '.' :: (d3 ++ ']' :: t))))).data =
      '[' :: (d1 ++ ':' :: (d2 ++ '.' :: (d3 ++ ']' :: t))) from rfl, hsearch]
  refine ⟨hgen, ?_, rfl, parseLrcLyric_text_ne_empty⟩
  have h := hgen ['0', '1'] ['0', '2'] ['5', '0'] "Hello".data
    (by decide) (by decide) (by decide) (by decide) (by decide) (by decide)
  rw [show "[01:02.50]Hello" =
    String.mk ('[' :: (['0', '1'] ++ ':' :: (['0', '2'] ++ '.' ::
      (['5', '0'] ++ ']' :: "Hello".data)))) from rfl, h]
  have htext : String.mk (trimChars "Hello".data) = "Hello" := rfl
  have htime : ((digitsToNat ['0', '1'] : Rat) * 60 +
      ((digitsToNat ['0', '2'] : Rat) +
        (digitsToNat ['5', '0'] : Rat) / (10 : Rat) ^ (['5', '0'] : List Char).length)) * 1000 =
      62500 := by
    rw [show digitsToNat ['0', '1'] = 1 from rfl, show digitsToNat ['0', '2'] = 2 from rfl,
      show digitsToNat ['5', '0'] = 50 from rfl,
      show (['5', '0'] : List Char).length = 2 from rfl]
    norm_num
  rw [htext, htime]

/-- Witness for C7: the general conjunct applied to the digit runs of
`"[03:07.2]  hi  "` yields the trimmed text `"hi"` at
`(3*60 + 7.2) * 1000 = 187200` milliseconds. -/
theorem parseLrcLine_spec_witness :
    parseLrcLine "[03:07.2]  hi  " = some ⟨"hi", 187200⟩ := by
  have h := parseLrcLine_spec.1 ['0', '3'] ['0', '7'] ['2'] "  hi  ".data
    (by decide) (by decide) (by decide) (by decide) (by decide) (by decide)
  rw [show "[03:07.2]  hi  " =
    String.mk ('[' :: (['0', '3'] ++ ':' :: (['0', '7'] ++ '.' ::
      (['2'] ++ ']' :: "  hi  ".data)))) from rfl, h]
  have htext : String.mk (trimChars "  hi  ".data) = "hi" := rfl
  have htime : ((digitsToNat ['0', '3'] : Rat) * 60 +
      ((digitsToNat ['0', '7'] : Rat) +
        (digitsToNat ['2'] : Rat) / (10 : Rat) ^ (['2'] : List Char).length)) * 1000 =
      187200 := by
    rw [show digitsToNat ['0', '3'] = 3 from rfl, show digitsToNat ['0', '7'] = 7 from rfl,
      show digitsToNat ['2'] = 2 from rfl, show (['2'] : List Char).length = 1 from rfl]
    norm_num
  rw [htext, htime]
